import Mathlib

/-!
Shallow embedding of `src/listener.py` (speakslow): the rolling
words-per-minute tracker, the stammering/articulation analysis, the Vosk
result parsing, and the recognition-thread orchestration, together with
proofs of the behavioural claims about them.

External effects are made explicit: `time.time()` values are parameters of
type `ℚ`, the result of `json.loads` on recognizer output is modelled as an
`Option`-typed record (`none` stands for any input on which the `try` body
raises, i.e. malformed JSON or a JSON value without the expected shape),
and the GUI sink callback is modelled by returning the list of
`(message, alert)` calls made.
-/

/-- Configuration, listener.py line 21: seconds kept in the rolling buffer. -/
def ROLLING_WINDOW_SIZE : ℚ := 10

/-- Configuration, listener.py line 22: WPM alert threshold. -/
def WORDS_PER_MINUTE_THRESHOLD : ℕ := 180

/-- Configuration, listener.py line 25: repeated-word count needed for a stammer alert. -/
def STAMMER_REPEAT_THRESHOLD : ℕ := 2

/-- Configuration, listener.py line 28: confidence threshold 0.6 for garbled tagging. -/
def GARBLED_CONFIDENCE_THRESHOLD : ℚ := mkRat 6 10

/-- Python str.lower, modelled character-wise. -/
def py_lower (s : String) : String :=
  String.mk (s.data.map Char.toLower)

/-- Python str.strip: remove whitespace from both ends. -/
def py_strip (s : String) : String :=
  String.mk (((s.data.dropWhile Char.isWhitespace).reverse.dropWhile
    Char.isWhitespace).reverse)

/-- One element of `word_timestamp_deque` (listener.py line 37): a
`(word, timestamp)` pair. -/
structure WordEntry where
  word : String
  ts : ℚ
  deriving DecidableEq, Repr

/-- The condition of the eviction while-loop (listener.py line 49):
the entry is older than the rolling window. -/
def isOld (now : ℚ) (e : WordEntry) : Bool :=
  decide (now - e.ts > ROLLING_WINDOW_SIZE)

/-- The eviction while-loop of compute_rolling_wpm (listener.py lines 49-50):
popleft entries from the front of the deque while they are too old. -/
def evict (now : ℚ) (buf : List WordEntry) : List WordEntry :=
  buf.dropWhile (isOld now)

/-- compute_rolling_wpm (listener.py lines 42-55). The Python function reads
`time.time()` itself (parameter `now` here), mutates the global deque by
evicting old entries, and returns `(len / ROLLING_WINDOW_SIZE) * 60`.
Returned as the pair (wpm, deque after eviction). -/
def compute_rolling_wpm (now : ℚ) (buf : List WordEntry) : ℚ × List WordEntry :=
  let buf2 := evict now buf
  (((buf2.length : ℚ) / ROLLING_WINDOW_SIZE) * 60, buf2)

/-- The loop condition of analyze_stammering_and_articulation (listener.py
line 65): `words[i].lower() == words[i-1].lower()`. -/
def stammer_pred (words : List String) (i : ℕ) : Bool :=
  py_lower (words.getD i "") == py_lower (words.getD (i - 1) "")

/-- analyze_stammering_and_articulation (listener.py lines 57-71): counts the
indices `i` in `range(1, len(words))` at which the word equals its predecessor
case-insensitively, and returns `(stammer_alert, stammer_count,
articulation_alert)`. -/
def analyze_stammering_and_articulation (words : List String) : Bool × ℕ × Bool :=
  let stammer_count := (List.range' 1 (words.length - 1)).countP (stammer_pred words)
  (decide (stammer_count ≥ STAMMER_REPEAT_THRESHOLD), stammer_count,
    decide (words.length = 0))

/-- One element of the `"result"` array of a Vosk final record, as read by the
loop body of parse_vosk_json (listener.py lines 91-93): `item.get("word", "")`
and `item.get("conf", 1.0)` are modelled by `Option` fields. -/
structure VoskWordItem where
  word : Option String
  conf : Option ℚ
  deriving DecidableEq, Repr

/-- A successfully parsed Vosk final record (the `json.loads` result used by
parse_vosk_json): `data.get("text", "")` and the optional `"result"` array. -/
structure VoskFinalRecord where
  text : Option String
  result : Option (List VoskWordItem)
  deriving DecidableEq, Repr

/-- The display rendering of one item, the loop body of parse_vosk_json
(listener.py lines 92-102): tag the word as `[garbled:<word>]` when its
confidence is below the threshold. -/
def display_word_of (item : VoskWordItem) : String :=
  let w := item.word.getD ""
  let conf := item.conf.getD 1
  if conf < GARBLED_CONFIDENCE_THRESHOLD then "[garbled:" ++ w ++ "]" else w

/-- The plain (untagged) text of one item, listener.py line 95. -/
def plain_word_of (item : VoskWordItem) : String :=
  item.word.getD ""

/-- parse_vosk_json (listener.py lines 74-107). Input `none` models any JSON
string on which the `try` body raises (malformed JSON, or a value without the
expected object shape); the `except` clause then returns `("", [], [])`.
The single Python loop appends to `display_words` and `plain_words` in
lockstep; here it is the two corresponding maps. -/
def parse_vosk_json (j : Option VoskFinalRecord) : String × List String × List String :=
  match j with
  | none => ("", [], [])
  | some data =>
    let items := data.result.getD []
    let display_words := items.map display_word_of
    let plain_words := items.map plain_word_of
    let display_text := String.intercalate " " display_words
    (display_text, display_words, plain_words)

/-- A successfully parsed Vosk partial record: `partial_field` models the
JSON key `"partial"` read by `data.get("partial", "")`. -/
structure VoskPartialRecord where
  partial_field : Option String
  deriving DecidableEq, Repr

/-- parse_partial_json (listener.py lines 109-119); `none` models any input
on which the `try` body raises, giving `""`. -/
def parse_partial_json (j : Option VoskPartialRecord) : String :=
  match j with
  | none => ""
  | some data => data.partial_field.getD ""

/-- The state owned by the recognition thread: the global
`word_timestamp_deque` (listener.py line 37) and the local
`partial_text_accumulator` (listener.py line 167). -/
structure OrchState where
  word_timestamp_deque : List WordEntry
  partial_text_accumulator : String
  deriving DecidableEq, Repr

/-- The recording loop of the final branch (listener.py lines 184-185):
append one `(word, now)` entry per plain word, preserving order. -/
def recordWords (ws : List String) (now : ℚ) (buf : List WordEntry) : List WordEntry :=
  buf ++ ws.map (fun w => ⟨w, now⟩)

/-- A whole session of final-branch recordings: each operation appends its
word list at its timestamp (repeated application of the loop of listener.py
lines 184-185, starting from some buffer). -/
def record_all (ops : List (List String × ℚ)) (buf : List WordEntry) : List WordEntry :=
  ops.foldl (fun b op => recordWords op.1 op.2 b) buf

/-- The fast-speech alert line (listener.py line 195). -/
def fast_line : String :=
  "You might be speaking too fast! (>" ++ toString WORDS_PER_MINUTE_THRESHOLD ++ " WPM)"

/-- The stammer alert line (listener.py line 198). -/
def stammer_line (stammer_count : ℕ) : String :=
  "Possible stammering. Repeated words: " ++ toString stammer_count

/-- The unclear-articulation alert line (listener.py line 201). -/
def articulation_line : String :=
  "Articulation might be unclear (no words recognized)."

/-- Assembly of `alert_messages` (listener.py lines 193-201): the three
conditional appends to the list. -/
def build_alert_messages (wpm : ℚ) (stammer_alert : Bool) (stammer_count : ℕ)
    (articulation_alert : Bool) : List String :=
  (if wpm > (WORDS_PER_MINUTE_THRESHOLD : ℚ) then [fast_line] else [])
    ++ (if stammer_alert then [stammer_line stammer_count] else [])
    ++ (if articulation_alert then [articulation_line] else [])

/-- Fixed-point rendering with two decimals and round-half-to-even, modelling
the f-string `f"{wpm:.2f}"` (listener.py line 191) on the exact value. -/
def format_two_dec (q : ℚ) : String :=
  let x := q * 100
  let fl := ⌊x⌋
  let cents : ℤ :=
    if x - fl < 1 / 2 then fl
    else if x - fl > 1 / 2 then fl + 1
    else if fl % 2 = 0 then fl else fl + 1
  toString (cents / 100) ++ "." ++ (if cents % 100 < 10 then "0" else "")
    ++ toString (cents % 100)

/-- The final-result branch of recognition_thread (listener.py lines
176-206), as a function of the parsed record. `now` models the
`time.time()` call at line 183, `now2` the one inside compute_rolling_wpm at
line 47. Returns the new state and the sink emission, if any. -/
def process_final (j : Option VoskFinalRecord) (now now2 : ℚ) (st : OrchState) :
    OrchState × Option (String × Bool) :=
  let parsed := parse_vosk_json j
  let display_text := parsed.1
  let plain_words := parsed.2.2
  if py_strip display_text = "" then (st, none)
  else
    let deque1 := recordWords plain_words now st.word_timestamp_deque
    let analysis := analyze_stammering_and_articulation plain_words
    let stammer_alert := analysis.1
    let stammer_count := analysis.2.1
    let articulation_alert := analysis.2.2
    let wpmres := compute_rolling_wpm now2 deque1
    let wpm := wpmres.1
    let deque2 := wpmres.2
    let message := "Recognized: " ++ display_text ++ "\n"
      ++ "Rolling WPM: " ++ format_two_dec wpm ++ "\n"
    let alert_messages := build_alert_messages wpm stammer_alert stammer_count articulation_alert
    let message2 :=
      if alert_messages.isEmpty then message
      else message ++ String.intercalate "\n" (alert_messages.map (fun m => "[ALERT] " ++ m))
    ({ st with word_timestamp_deque := deque2 }, some (message2, !alert_messages.isEmpty))

/-- The partial-result branch of recognition_thread (listener.py lines
207-213): emit only a non-empty partial text that differs from the one-slot
`partial_text_accumulator`, updating the slot on emission. -/
def process_partial_branch (j : Option VoskPartialRecord) (st : OrchState) :
    OrchState × Option (String × Bool) :=
  let partial_text := parse_partial_json j
  if partial_text ≠ "" ∧ partial_text ≠ st.partial_text_accumulator then
    ({ st with partial_text_accumulator := partial_text },
      some ("[Partial] " ++ partial_text, false))
  else (st, none)

/-- One iteration of the main loop (listener.py lines 169-213), abstracting
the recognition engine: a frame either finalizes an utterance (with the
parsed final record and the two `time.time()` readings) or yields a partial
record. -/
inductive EngineEvent where
  | finalEv (r : Option VoskFinalRecord) (now now2 : ℚ)
  | partialEv (r : Option VoskPartialRecord)
  deriving DecidableEq, Repr

/-- Dispatch of one loop iteration on the engine outcome (listener.py
line 175). -/
def step (st : OrchState) (ev : EngineEvent) : OrchState × Option (String × Bool) :=
  match ev with
  | .finalEv r now now2 => process_final r now now2 st
  | .partialEv r => process_partial_branch r st

/-- The main loop of recognition_thread over a finite stream of engine
events, collecting all sink emissions in order. -/
def run_loop (events : List EngineEvent) (st : OrchState) :
    OrchState × List (String × Bool) :=
  match events with
  | [] => (st, [])
  | ev :: rest =>
    let res := step st ev
    let rest2 := run_loop rest res.1
    (rest2.1, res.2.toList ++ rest2.2)

/-- Initial orchestrator state: empty deque (listener.py line 37), empty
partial accumulator (line 167). -/
def initial_state : OrchState := ⟨[], ""⟩

/-- recognition_thread (listener.py lines 152-213): the startup existence
check on MODEL_PATH and, if it passes, the main loop. The result is the list
of `(message, alert)` sink calls. `model_path_exists` models
`os.path.exists(MODEL_PATH)`. -/
def recognition_thread (model_path_exists : Bool) (events : List EngineEvent) :
    List (String × Bool) :=
  if model_path_exists then (run_loop events initial_state).2
  else [("[ERROR] Vosk model path not found. Check MODEL_PATH.", true)]

/-- The rolling-buffer ordering invariant: timestamps are non-decreasing from
front to back of the deque. -/
def sortedByTs (buf : List WordEntry) : Prop :=
  buf.Pairwise (fun a b => a.ts ≤ b.ts)

instance (buf : List WordEntry) : Decidable (sortedByTs buf) :=
  List.instDecidablePairwise buf

/-- On a buffer sorted by timestamp, the front eviction loop removes exactly
the entries older than the window: dropWhile coincides with filter. -/
theorem evict_sorted_eq_filter (now : ℚ) :
    ∀ buf : List WordEntry, sortedByTs buf →
      evict now buf = buf.filter (fun e => decide (now - e.ts ≤ ROLLING_WINDOW_SIZE)) := by
  intro buf
  induction buf with
  | nil => intro _; rfl
  | cons a l ih =>
    intro h
    rw [sortedByTs, List.pairwise_cons] at h
    obtain ⟨ha, hl⟩ := h
    by_cases hp : ROLLING_WINDOW_SIZE < now - a.ts
    · have hold : isOld now a = true := by simp [isOld, hp]
      have hfa : (decide (now - a.ts ≤ ROLLING_WINDOW_SIZE)) = false := by
        simp [not_le.mpr hp]
      rw [evict, List.dropWhile_cons, hold, List.filter_cons, hfa]
      simpa [evict] using ih hl
    · have hnot : isOld now a = false := by simp [isOld, hp]
      have hfa : (decide (now - a.ts ≤ ROLLING_WINDOW_SIZE)) = true := by
        simp [not_lt.mp hp]
      rw [evict, List.dropWhile_cons, hnot, List.filter_cons, hfa]
      simp only [if_true]
      have hall : ∀ e ∈ l, (decide (now - e.ts ≤ ROLLING_WINDOW_SIZE)) = true := by
        intro e he
        have h1 : a.ts ≤ e.ts := ha e he
        have h2 : now - a.ts ≤ ROLLING_WINDOW_SIZE := not_lt.mp hp
        simp only [decide_eq_true_eq]
        linarith
      rw [List.filter_eq_self.mpr hall]
      simp

/-- dropWhile is idempotent. -/
theorem dropWhile_dropWhile {α : Type} (p : α → Bool) :
    ∀ l : List α, (l.dropWhile p).dropWhile p = l.dropWhile p := by
  intro l
  induction l with
  | nil => rfl
  | cons a t ih =>
    by_cases h : p a = true
    · simp [List.dropWhile_cons, h, ih]
    · simp only [Bool.not_eq_true] at h
      simp [List.dropWhile_cons, h]

/-- All entries created by one recordWords call carry the same timestamp, so
they are pairwise ordered. -/
theorem pairwise_map_const_ts (now : ℚ) :
    ∀ ws : List String,
      List.Pairwise (fun a b : WordEntry => a.ts ≤ b.ts) (ws.map fun w => ⟨w, now⟩) := by
  intro ws
  induction ws with
  | nil => exact List.Pairwise.nil
  | cons w t ih =>
    rw [List.map_cons, List.pairwise_cons]
    refine ⟨?_, ih⟩
    intro b hb
    rw [List.mem_map] at hb
    obtain ⟨x, _, rfl⟩ := hb
    exact le_refl now

/-- recordWords preserves the ordering invariant when the new timestamp is no
smaller than every timestamp already in the buffer. -/
theorem sorted_recordWords (ws : List String) (now : ℚ) (buf : List WordEntry)
    (h1 : sortedByTs buf) (h2 : ∀ e ∈ buf, e.ts ≤ now) :
    sortedByTs (recordWords ws now buf) := by
  rw [recordWords, sortedByTs, List.pairwise_append]
  refine ⟨h1, pairwise_map_const_ts now ws, ?_⟩
  intro a hamem b hbmem
  rw [List.mem_map] at hbmem
  obtain ⟨x, _, rfl⟩ := hbmem
  exact h2 a hamem

/-- A sequence of recordWords calls with non-decreasing timestamps keeps the
buffer sorted, provided the starting buffer is sorted and at or before the
first timestamp. -/
theorem record_all_sorted :
    ∀ (ops : List (List String × ℚ)) (buf : List WordEntry),
      sortedByTs buf → (∀ e ∈ buf, ∀ op ∈ ops, e.ts ≤ op.2) →
      (ops.map Prod.snd).Pairwise (fun a b => a ≤ b) →
      sortedByTs (record_all ops buf) := by
  intro ops
  induction ops with
  | nil => intro buf h _ _; exact h
  | cons op rest ih =>
    intro buf h hts hp
    rw [List.map_cons, List.pairwise_cons] at hp
    obtain ⟨hphead, hptail⟩ := hp
    have hstep : sortedByTs (recordWords op.1 op.2 buf) :=
      sorted_recordWords op.1 op.2 buf h
        (fun e he => hts e he op (List.mem_cons_self op rest))
    have hnext : ∀ e ∈ recordWords op.1 op.2 buf, ∀ op2 ∈ rest, e.ts ≤ op2.2 := by
      intro e he op2 hop2
      rw [recordWords, List.mem_append] at he
      rcases he with hbuf | hmap
      · exact hts e hbuf op2 (List.mem_cons_of_mem op hop2)
      · rw [List.mem_map] at hmap
        obtain ⟨w, _, rfl⟩ := hmap
        exact hphead op2.2 (List.mem_map_of_mem Prod.snd hop2)
    have : record_all (op :: rest) buf = record_all rest (recordWords op.1 op.2 buf) := rfl
    rw [this]
    exact ih (recordWords op.1 op.2 buf) hstep hnext hptail

/-- Shifting the index range by one while prepending a word leaves the
adjacent-pair predicate counts unchanged, as long as indices stay at least 1. -/
theorem stammer_pred_shift (x : String) (ws : List String) :
    ∀ (m s : ℕ), (List.range' (s + 2) m).countP (stammer_pred (x :: ws))
      = (List.range' (s + 1) m).countP (stammer_pred ws) := by
  intro m
  induction m with
  | zero => intro s; rfl
  | succ m ih =>
    intro s
    rw [List.range'_succ, List.range'_succ, List.countP_cons, List.countP_cons]
    have hhead : stammer_pred (x :: ws) (s + 2) = stammer_pred ws (s + 1) := by
      have e1 : s + 2 = (s + 1) + 1 := rfl
      have e2 : s + 2 - 1 = s + 1 := rfl
      have e3 : s + 1 - 1 = s := rfl
      rw [stammer_pred, stammer_pred, e1, List.getD_cons_succ, e2, List.getD_cons_succ, e3]
    have e4 : s + 2 + 1 = (s + 1) + 2 := rfl
    rw [hhead, e4, ih (s + 1)]

/-- The index-based adjacent-repeat count of the source equals the count of
repeating adjacent pairs in the zipped word list. -/
theorem stammer_count_eq_adj :
    ∀ (t : List String) (a : String),
      (List.range' 1 ((a :: t).length - 1)).countP (stammer_pred (a :: t))
        = ((a :: t).zip t).countP (fun p => py_lower p.2 == py_lower p.1) := by
  intro t
  induction t with
  | nil => intro a; rfl
  | cons b t2 ih =>
    intro a
    have hlen : (a :: b :: t2).length - 1 = t2.length + 1 := rfl
    rw [hlen, List.range'_succ, List.countP_cons]
    have hshift := stammer_pred_shift a (b :: t2) t2.length 0
    have e1 : (0 : ℕ) + 2 = 1 + 1 := rfl
    have e2 : (0 : ℕ) + 1 = 1 := rfl
    rw [e1, e2] at hshift
    have hzip : (a :: b :: t2).zip (b :: t2) = (a, b) :: ((b :: t2).zip t2) := rfl
    rw [hzip, List.countP_cons, hshift]
    have hlen2 : (b :: t2).length - 1 = t2.length := rfl
    have ihb := ih b
    rw [hlen2] at ihb
    rw [ihb]
    have hpr : stammer_pred (a :: b :: t2) 1
        = ((fun p : String × String => py_lower p.2 == py_lower p.1) (a, b)) := rfl
    rw [hpr]

/-- The stammer alert line never coincides with the articulation alert line,
whatever the count rendered into it (their first characters differ). -/
theorem stammer_line_ne_articulation (sc : ℕ) : stammer_line sc ≠ articulation_line := by
  intro h
  have h2 : (stammer_line sc).data = articulation_line.data := congrArg String.data h
  rw [stammer_line, articulation_line, String.data_append] at h2
  have hP : (("Possible stammering. Repeated words: ".data) ++ (toString sc).data).head?
      = some (Char.ofNat 80) := rfl
  rw [h2] at hP
  have hA : ("Articulation might be unclear (no words recognized).".data).head?
      = some (Char.ofNat 65) := rfl
  rw [hA] at hP
  exact absurd hP (by decide)

/-- When the articulation flag is false, the articulation line is absent from
the assembled alert list. -/
theorem articulation_line_not_mem (wpm : ℚ) (sa : Bool) (sc : ℕ) :
    articulation_line ∉ build_alert_messages wpm sa sc false := by
  intro h
  rw [build_alert_messages, List.mem_append, List.mem_append] at h
  rcases h with (h | h) | h
  · by_cases hc : wpm > (WORDS_PER_MINUTE_THRESHOLD : ℚ)
    · rw [if_pos hc, List.mem_singleton] at h
      exact absurd h.symm (by decide)
    · rw [if_neg hc] at h
      exact absurd h (List.not_mem_nil _)
  · by_cases hc : sa = true
    · rw [if_pos hc, List.mem_singleton] at h
      exact (stammer_line_ne_articulation sc) h.symm
    · simp only [Bool.not_eq_true] at hc
      rw [hc] at h
      simp at h
  · simp at h

/-- C1: on a buffer of word-timestamp entries sorted by non-decreasing
timestamp, compute_rolling_wpm at query time `now` returns (number of entries
with now - timestamp ≤ windowSeconds) / windowSeconds * 60, where
windowSeconds = ROLLING_WINDOW_SIZE = 10; in particular it returns exactly 0
when every entry is older than the window, and on the empty buffer. -/
theorem rolling_wpm_window_correct (now : ℚ) (buf : List WordEntry)
    (h : sortedByTs buf) :
    (compute_rolling_wpm now buf).1
        = (((buf.filter (fun e => decide (now - e.ts ≤ ROLLING_WINDOW_SIZE))).length : ℚ)
            / ROLLING_WINDOW_SIZE) * 60
      ∧ ROLLING_WINDOW_SIZE = 10
      ∧ ((∀ e ∈ buf, now - e.ts > ROLLING_WINDOW_SIZE) →
          (compute_rolling_wpm now buf).1 = 0)
      ∧ (compute_rolling_wpm now []).1 = 0 := by
  have hev := evict_sorted_eq_filter now buf h
  have hmain : (compute_rolling_wpm now buf).1
      = (((buf.filter (fun e => decide (now - e.ts ≤ ROLLING_WINDOW_SIZE))).length : ℚ)
          / ROLLING_WINDOW_SIZE) * 60 := by
    simp only [compute_rolling_wpm]
    rw [hev]
  refine ⟨hmain, rfl, ?_, ?_⟩
  · intro hall
    have hnil : buf.filter (fun e => decide (now - e.ts ≤ ROLLING_WINDOW_SIZE)) = [] := by
      rw [List.filter_eq_nil_iff]
      intro a ha
      simp only [decide_eq_true_eq, not_le]
      exact hall a ha
    rw [hmain, hnil]
    norm_num
  · simp [compute_rolling_wpm, evict, ROLLING_WINDOW_SIZE]

/-- Witness for C1 at a concrete sorted buffer: entries at times 0 and 5,
queried at time 12, leave one entry in the window and report 6 WPM. -/
theorem rolling_wpm_window_correct_witness :
    (compute_rolling_wpm 12 [⟨"a", 0⟩, ⟨"b", 5⟩]).1
      = ((([(⟨"a", 0⟩ : WordEntry), ⟨"b", 5⟩].filter
            (fun e => decide ((12 : ℚ) - e.ts ≤ ROLLING_WINDOW_SIZE))).length : ℚ)
          / ROLLING_WINDOW_SIZE) * 60 :=
  (rolling_wpm_window_correct 12 [⟨"a", 0⟩, ⟨"b", 5⟩]
    (by simp [sortedByTs, List.pairwise_cons])).1

/-- C2: the rolling-buffer invariant. Starting from the empty deque, any
sequence of recordWords operations with non-decreasing timestamps leaves the
buffer sorted by non-decreasing timestamp, and eviction at any query time
removes exactly the entries with now - timestamp > ROLLING_WINDOW_SIZE:
afterwards the buffer is precisely the entries within the window. -/
theorem rolling_buffer_invariant (ops : List (List String × ℚ))
    (h : (ops.map Prod.snd).Pairwise (fun a b => a ≤ b)) :
    sortedByTs (record_all ops [])
      ∧ ∀ q : ℚ, evict q (record_all ops [])
          = (record_all ops []).filter
              (fun e => decide (q - e.ts ≤ ROLLING_WINDOW_SIZE)) := by
  have hs : sortedByTs (record_all ops []) := by
    apply record_all_sorted ops []
    · exact List.Pairwise.nil
    · intro e he
      exact absurd he (List.not_mem_nil e)
    · exact h
  exact ⟨hs, fun q => evict_sorted_eq_filter q (record_all ops []) hs⟩

/-- Witness for C2 at a concrete two-utterance session with timestamps 0 and
2, with eviction queried at time 11. -/
theorem rolling_buffer_invariant_witness :
    sortedByTs (record_all [(["a"], (0 : ℚ)), (["b", "c"], 2)] [])
      ∧ evict 11 (record_all [(["a"], (0 : ℚ)), (["b", "c"], 2)] [])
          = (record_all [(["a"], (0 : ℚ)), (["b", "c"], 2)] []).filter
              (fun e => decide ((11 : ℚ) - e.ts ≤ ROLLING_WINDOW_SIZE)) := by
  have h := rolling_buffer_invariant [(["a"], (0 : ℚ)), (["b", "c"], 2)]
    (by simp [List.pairwise_cons])
  exact ⟨h.1, h.2 11⟩

/-- C8: calling compute_rolling_wpm twice in succession at the same query
time, with no intervening recordWords, returns the same value both times and
leaves the buffer unchanged after the second call. -/
theorem wpm_eviction_idempotent (now : ℚ) (buf : List WordEntry)
    (h : sortedByTs buf) :
    compute_rolling_wpm now (compute_rolling_wpm now buf).2
      = compute_rolling_wpm now buf := by
  simp only [compute_rolling_wpm, evict]
  rw [dropWhile_dropWhile]

/-- Witness for C8 at a concrete sorted buffer. -/
theorem wpm_eviction_idempotent_witness :
    compute_rolling_wpm 12 (compute_rolling_wpm 12 [⟨"a", 0⟩, ⟨"b", 5⟩]).2
      = compute_rolling_wpm 12 [⟨"a", 0⟩, ⟨"b", 5⟩] :=
  wpm_eviction_idempotent 12 [⟨"a", 0⟩, ⟨"b", 5⟩]
    (by simp [sortedByTs, List.pairwise_cons])

/-- C3: for a well-formed final record, parse_vosk_json renders each word
through display_word_of and keeps the original text in plain_words; a word is
rendered as the garbled tag exactly when its confidence is strictly below
GARBLED_CONFIDENCE_THRESHOLD; a word without a confidence entry is never
tagged; display_text is the display words joined by single spaces; and on
the words [("cat", 0.9), ("dog", 0.3)] the result is
("cat [garbled:dog]", ["cat", "[garbled:dog]"], ["cat", "dog"]). -/
theorem garbled_tagging_correct (t : Option String) (items : List VoskWordItem) :
    (parse_vosk_json (some ⟨t, some items⟩)
        = (String.intercalate " " (items.map display_word_of),
           items.map display_word_of, items.map plain_word_of))
      ∧ (∀ item : VoskWordItem,
          display_word_of item = "[garbled:" ++ plain_word_of item ++ "]"
            ↔ item.conf.getD 1 < GARBLED_CONFIDENCE_THRESHOLD)
      ∧ (∀ w : Option String, display_word_of ⟨w, none⟩ = plain_word_of ⟨w, none⟩)
      ∧ parse_vosk_json (some ⟨some "cat dog",
            some [⟨some "cat", some (mkRat 9 10)⟩, ⟨some "dog", some (mkRat 3 10)⟩]⟩)
          = ("cat [garbled:dog]", ["cat", "[garbled:dog]"], ["cat", "dog"]) := by
  refine ⟨rfl, ?_, ?_, by decide⟩
  · intro item
    rw [display_word_of, plain_word_of]
    by_cases hc : item.conf.getD 1 < GARBLED_CONFIDENCE_THRESHOLD
    · rw [if_pos hc]
      exact ⟨fun _ => hc, fun _ => rfl⟩
    · rw [if_neg hc]
      constructor
      · intro heq
        exfalso
        have hlen := congrArg String.length heq
        rw [String.length_append, String.length_append] at hlen
        have h9 : ("[garbled:" : String).length = 9 := rfl
        have h1 : ("]" : String).length = 1 := rfl
        rw [h9, h1] at hlen
        omega
      · intro hc2
        exact absurd hc2 hc
  · intro w
    rw [display_word_of, plain_word_of]
    norm_num [GARBLED_CONFIDENCE_THRESHOLD, Rat.mkRat_eq_div]

/-- C4: analyze_stammering_and_articulation computes the repeat count as the
number of adjacent pairs that are equal case-insensitively, raises the
stammer alert exactly when that count reaches STAMMER_REPEAT_THRESHOLD = 2,
raises the articulation alert exactly when the word list is empty, and on
["the", "the", "cat", "cat", "sat"] returns (true, 2, false). -/
theorem repetition_detector_correct (words : List String) :
    ((analyze_stammering_and_articulation words).2.1
        = (words.zip words.tail).countP (fun p => py_lower p.2 == py_lower p.1))
      ∧ ((analyze_stammering_and_articulation words).1 = true
          ↔ STAMMER_REPEAT_THRESHOLD ≤ (analyze_stammering_and_articulation words).2.1)
      ∧ ((analyze_stammering_and_articulation words).2.2 = true ↔ words = [])
      ∧ analyze_stammering_and_articulation ["the", "the", "cat", "cat", "sat"]
          = (true, 2, false) := by
  refine ⟨?_, ?_, ?_, by decide⟩
  · cases words with
    | nil => rfl
    | cons a tl => exact stammer_count_eq_adj tl a
  · simp [analyze_stammering_and_articulation]
  · simp [analyze_stammering_and_articulation, List.length_eq_zero]

/-- C5: parsing fails soft. On any input whose processing raises (modelled by
`none`), parse_vosk_json returns exactly ("", [], []) and parse_partial_json
returns exactly ""; the orchestrator then treats the final result as an
utterance with empty display text and emits no message, leaving its state
unchanged. -/
theorem malformed_input_fails_soft (now now2 : ℚ) (st : OrchState) :
    parse_vosk_json none = ("", [], [])
      ∧ parse_partial_json none = ""
      ∧ process_final none now now2 st = (st, none) :=
  ⟨rfl, rfl, rfl⟩

/-- C6: the non-empty-text gate of the final branch. When the parsed display
text is empty the orchestrator emits nothing and performs no recording and no
rate computation (the state is unchanged); whenever it does emit, the display
text was non-empty; and for the empty word list the articulation flag is
true. -/
theorem empty_display_text_gate (j : Option VoskFinalRecord) (now now2 : ℚ)
    (st : OrchState) :
    ((parse_vosk_json j).1 = "" → process_final j now now2 st = (st, none))
      ∧ ((process_final j now now2 st).2.isSome = true → (parse_vosk_json j).1 ≠ "")
      ∧ (analyze_stammering_and_articulation []).2.2 = true := by
  have hgate : (parse_vosk_json j).1 = "" → process_final j now now2 st = (st, none) := by
    intro h
    simp only [process_final, h]
    rfl
  refine ⟨hgate, ?_, rfl⟩
  intro hsome h0
  rw [hgate h0] at hsome
  simp at hsome

/-- Witness for C6: an exception-path final record leads to no emission; a
one-word record does emit, so its display text is non-empty. -/
theorem empty_display_text_gate_witness :
    process_final none 0 0 initial_state = (initial_state, none)
      ∧ (parse_vosk_json (some ⟨some "hi", some [⟨some "hi", none⟩]⟩)).1 ≠ "" :=
  ⟨(empty_display_text_gate none 0 0 initial_state).1 rfl,
   (empty_display_text_gate (some ⟨some "hi", some [⟨some "hi", none⟩]⟩) 0 0
      initial_state).2.1 (by decide)⟩

/-- C7: the partial branch emits exactly when the parsed partial text is
non-empty and differs from the one-slot accumulator; the accumulator is
updated exactly on emission; and the partial sequence "he", "he", "hel"
produces exactly the two emissions for "he" and "hel". -/
theorem partial_dedup_correct (j : Option VoskPartialRecord) (st : OrchState) :
    ((process_partial_branch j st).2.isSome = true
        ↔ (parse_partial_json j ≠ ""
            ∧ parse_partial_json j ≠ st.partial_text_accumulator))
      ∧ ((process_partial_branch j st).1
          = if parse_partial_json j ≠ ""
                ∧ parse_partial_json j ≠ st.partial_text_accumulator
              then { st with partial_text_accumulator := parse_partial_json j }
              else st)
      ∧ (run_loop [EngineEvent.partialEv (some ⟨some "he"⟩),
            EngineEvent.partialEv (some ⟨some "he"⟩),
            EngineEvent.partialEv (some ⟨some "hel"⟩)] initial_state).2
          = [("[Partial] he", false), ("[Partial] hel", false)] := by
  refine ⟨?_, ?_, by decide⟩
  · simp only [process_partial_branch]
    by_cases h : parse_partial_json j ≠ ""
        ∧ parse_partial_json j ≠ st.partial_text_accumulator
    · rw [if_pos h]
      simp [h]
    · rw [if_neg h]
      simp [h]
  · simp only [process_partial_branch]
    by_cases h : parse_partial_json j ≠ ""
        ∧ parse_partial_json j ≠ st.partial_text_accumulator
    · rw [if_pos h, if_pos h]
    · rw [if_neg h, if_neg h]

/-- C9: when the model resource path does not exist, the recognition thread
emits exactly one alert-flagged error message and returns without entering
the main loop, whatever engine events would have been available. -/
theorem startup_failure_single_alert (events : List EngineEvent) :
    recognition_thread false events
        = [("[ERROR] Vosk model path not found. Check MODEL_PATH.", true)]
      ∧ (recognition_thread false events).length = 1 :=
  ⟨rfl, rfl⟩

/-- C10: display_words and plain_words always have equal length, every
emission of the final branch happens with a false articulation flag, and a
false articulation flag keeps the articulation line out of the assembled
alert messages — so the UnclearArticulation line is unreachable in emitted
output. -/
theorem articulation_alert_unreachable (j : Option VoskFinalRecord) (now now2 : ℚ)
    (st : OrchState) :
    ((parse_vosk_json j).2.1.length = (parse_vosk_json j).2.2.length)
      ∧ ((process_final j now now2 st).2.isSome = true
          → (analyze_stammering_and_articulation (parse_vosk_json j).2.2).2.2 = false)
      ∧ (∀ (wpm : ℚ) (sa : Bool) (sc : ℕ),
          articulation_line ∉ build_alert_messages wpm sa sc false) := by
  refine ⟨?_, ?_, fun wpm sa sc => articulation_line_not_mem wpm sa sc⟩
  · cases j with
    | none => rfl
    | some data => simp [parse_vosk_json]
  · intro hsome
    cases j with
    | none =>
      rw [show process_final none now now2 st = (st, none) from rfl] at hsome
      simp at hsome
    | some data =>
      by_cases hi : data.result.getD [] = []
      · have hdt : (parse_vosk_json (some data)).1 = "" := by
          show String.intercalate " " ((data.result.getD []).map display_word_of) = ""
          rw [hi]
          rfl
        have h1 : process_final (some data) now now2 st = (st, none) := by
          simp only [process_final, hdt]
          rfl
        rw [h1] at hsome
        simp at hsome
      · have hp : (parse_vosk_json (some data)).2.2
            = (data.result.getD []).map plain_word_of := rfl
        rw [hp]
        simp [analyze_stammering_and_articulation, List.length_eq_zero, hi]

/-- Witness for C10: a concrete one-word record that does emit, whose
articulation flag is false. -/
theorem articulation_alert_unreachable_witness :
    (analyze_stammering_and_articulation
        (parse_vosk_json (some ⟨some "hi", some [⟨some "hi", none⟩]⟩)).2.2).2.2
      = false :=
  (articulation_alert_unreachable (some ⟨some "hi", some [⟨some "hi", none⟩]⟩) 0 0
    initial_state).2.1 (by decide)
